import Mathlib

set_option maxRecDepth 4000

/-!
Verification of the mention-processing pipeline of `twitter-reply-bot.py`.

The Python source is shallowly embedded: strings are `List Char`, the
external collaborators (Twitter API, Chatbase, Claude summarizer, HCTI
renderer, Redis cursor store, Airtable ledger) are deterministic oracles
collected in an `Env` record, and the mutable bot state (Airtable table
contents, Redis cursor, run counters) is an explicit `BotState` record.
Every external write performed by a run is additionally recorded in an
event trace so that frame properties (what was NOT written) are statable.
Python exceptions are modelled with `Except`: code that the source wraps
in a `try`/`except` handles the error value; code outside any handler
propagates it, aborting the run.
-/

namespace ReplyBot

/-! ### Text normalizer (`clean_tweet_text`, lines 122-138)

`re.sub` with the patterns of the source is embedded as a left-to-right
scan: at each position the pattern is tried; on a match the matched span
is dropped and scanning resumes after it, otherwise the character is kept.
`\s`, `\w` and the character class of the fourth substitution are the
ASCII sets the regexes spell out.
-/

/-- The characters matched by the regex class `\s` (ASCII range). -/
def isSpaceChar (c : Char) : Bool :=
  c = ' ' || c = '\t' || c = '\n' || c = '\x0b' || c = '\x0c' || c = '\r'

/-- The characters matched by the regex class `\w` (ASCII range). -/
def isWordChar (c : Char) : Bool :=
  c.isAlphanum || c = '_'

/-- Characters surviving `re.sub(r'[^a-zA-Z0-9\s.,!?]', '', text)`. -/
def keepChar (c : Char) : Bool :=
  c.isAlphanum || isSpaceChar c || c = '.' || c = ',' || c = '!' || c = '?'

/-- Does `http\S+|www\S+|https\S+` match at the head of the list?
(The `https\S+` branch is subsumed by `http\S+`.) -/
def isUrlStart : List Char → Bool
  | 'h' :: 't' :: 't' :: 'p' :: c :: _ => !(isSpaceChar c)
  | 'w' :: 'w' :: 'w' :: c :: _ => !(isSpaceChar c)
  | _ => false

/-- Does `\w+` match at least one character at the head of the list? -/
def headIsWord : List Char → Bool
  | c :: _ => isWordChar c
  | [] => false

/-- A `dropWhile` length bound used for termination of the scanners. -/
theorem dropWhile_length_le (p : Char → Bool) :
    ∀ l : List Char, (l.dropWhile p).length ≤ l.length := by
  intro l
  induction l with
  | nil => simp [List.dropWhile]
  | cons c rest ih =>
    by_cases h : p c
    · simp [List.dropWhile, h]
      exact Nat.le_succ_of_le ih
    · simp [List.dropWhile, h]

/-- `re.sub(r'http\S+|www\S+|https\S+', '', text)` (line 124).
A match starting at the current character consumes the whole maximal
non-space run (the leading `http`/`www` is itself non-space). -/
def stripUrls : List Char → List Char
  | [] => []
  | c :: rest =>
    if isUrlStart (c :: rest) then
      stripUrls (rest.dropWhile (fun d => !(isSpaceChar d)))
    else
      c :: stripUrls rest
termination_by l => l.length
decreasing_by
  · exact Nat.lt_succ_of_le (dropWhile_length_le _ rest)
  · exact Nat.lt_succ_self _

/-- `re.sub(r'@\w+', '', text)` (line 127). -/
def stripMentions : List Char → List Char
  | [] => []
  | c :: rest =>
    if c = '@' ∧ headIsWord rest then
      stripMentions (rest.dropWhile isWordChar)
    else
      c :: stripMentions rest
termination_by l => l.length
decreasing_by
  · exact Nat.lt_succ_of_le (dropWhile_length_le _ rest)
  · exact Nat.lt_succ_self _

/-- `re.sub(r'[#$]\w+', '', text)` (line 130). -/
def stripTags : List Char → List Char
  | [] => []
  | c :: rest =>
    if (c = '#' ∨ c = '$') ∧ headIsWord rest then
      stripTags (rest.dropWhile isWordChar)
    else
      c :: stripTags rest
termination_by l => l.length
decreasing_by
  · exact Nat.lt_succ_of_le (dropWhile_length_le _ rest)
  · exact Nat.lt_succ_self _

/-- `re.sub(r'[^a-zA-Z0-9\s.,!?]', '', text)` (line 133). -/
def filterKept (l : List Char) : List Char :=
  l.filter keepChar

/-- The maximal space-free words of a list, in order. -/
def wordsOf : List Char → List (List Char)
  | [] => []
  | c :: rest =>
    if isSpaceChar c then
      wordsOf rest
    else
      (c :: rest.takeWhile (fun d => !(isSpaceChar d))) ::
        wordsOf (rest.dropWhile (fun d => !(isSpaceChar d)))
termination_by l => l.length
decreasing_by
  · exact Nat.lt_succ_self _
  · exact Nat.lt_succ_of_le (dropWhile_length_le _ rest)

/-- Join words with single spaces. -/
def joinSpace : List (List Char) → List Char
  | [] => []
  | w :: ws =>
    match ws with
    | [] => w
    | _ :: _ => w ++ ' ' :: joinSpace ws

/-- `re.sub(r'\s+', ' ', text).strip()` (line 136): every maximal
whitespace run collapses to one space and outer whitespace is removed,
i.e. the space-free words joined by single spaces. -/
def normSpace (l : List Char) : List Char :=
  joinSpace (wordsOf l)

/-- `clean_tweet_text` (lines 122-138): the five substitutions in source
order. -/
def clean_tweet_text (text : List Char) : List Char :=
  normSpace (filterKept (stripTags (stripMentions (stripUrls text))))

/-! ### Fixed strings of the source -/

/-- The apostrophe character (kept out of string literals). -/
def squote : Char := Char.ofNat 39

/-- The fixed apology returned when the Chatbase call fails (line 78). -/
def apologyText : List Char :=
  "I".data ++ [squote] ++ "m sorry, I couldn".data ++ [squote] ++
    "t process your request at this time.".data

/-- The prompt built by `generate_response` when a user comment is
present (line 168). -/
def mkPrompt (cleaned_original_tweet cleaned_user_comment : List Char) : List Char :=
  "Original tweet: ".data ++ [squote] ++ cleaned_original_tweet ++ [squote] ++
    "\nUser comment: ".data ++ [squote] ++ cleaned_user_comment ++ [squote] ++
    "\nPlease provide insights, fact-check, or additional information based on the original tweet and the user".data ++
    [squote] ++ "s comment.".data

/-- The promotional suffix appended to a summary (line 188). -/
def suffixText : List Char := "\n\nMore at ftxclaims.com".data

/-- The fallback visible text used when summarization fails (line 192). -/
def fallbackText : List Char := "More at ftxclaims.com".data

/-! ### Data model -/

/-- A tweet as consumed by the pipeline: a mention or a conversation
root.  `conversation_id` is `none` when the API supplied no
`conversation_id` field (Python `None`). -/
structure Tweet where
  id : Nat
  author_id : Nat
  text : List Char
  conversation_id : Option Nat
  created_at : Nat
deriving DecidableEq

/-- One Airtable row as inserted by `respond_to_mention` (lines 229-235). -/
structure LedgerRecord where
  mentioned_conversation_tweet_id : Nat
  mentioned_conversation_tweet_text : List Char
  tweet_response_id : Nat
  tweet_response_text : List Char
  mentioned_at : Nat
deriving DecidableEq

/-- The mutable state owned by the bot process: the Airtable table, the
Redis `last_tweet_id` key, the per-run limit set in `__init__`
(line 151), and the run counters. -/
structure BotState where
  ledger : List LedgerRecord
  cursor : Option Nat
  tweet_response_limit : Nat
  mentions_found : Nat
  mentions_replied : Nat
  mentions_replied_errors : Nat
deriving DecidableEq

/-- External write calls issued by a run, in order of occurrence.  An
event records that the call was ATTEMPTED (a failed `create_tweet` still
produced a `publish` event). -/
inductive Event where
  | mediaUpload (url : List Char)
  | publish (text : List Char) (media_id : Option Nat) (in_reply_to : Nat)
  | ledgerInsert (target_id : Nat) (response_id : Nat)
  | cursorSet (value : Nat)
deriving DecidableEq

/-- Uncaught Python exceptions that abort a run inside the mention loop. -/
inductive RunError where
  /-- An exception from `get_tweet` in `get_mention_conversation_tweet`
  (or the attribute access on a missing `data`), which no handler
  catches. -/
  | resolveError
  /-- The `AttributeError` raised at line 328 when
  `get_mention_conversation_tweet` returned `None` and the loop
  evaluates `mentioned_conversation_tweet.id`. -/
  | noneTarget
deriving DecidableEq

/-- The external collaborators as deterministic oracles.  `Except.error`
means the underlying call raised; `Option` is used where the source
itself converts failure to `None`.  `pages` gives, per `since_id`, the
successive responses of `get_users_mentions`: each page is the list of
mentions plus whether a `next_token` was present. -/
structure Env where
  me_id : Nat
  pages : Nat → List (Except Unit (List Tweet × Bool))
  getTweet : Nat → Except Unit (Option Tweet)
  chat : List Char → Except Unit (List Char)
  render : List Char → Option (List Char)
  summarize : List Char → Option (List Char)
  uploadMedia : List Char → Except Unit Nat
  createTweet : List Char → Option Nat → Nat → Except Unit Nat

/-! ### Pipeline functions -/

/-- `get_chatbot_response` (lines 54-78): a failed Chatbase call is
caught and replaced by the fixed apology. -/
def get_chatbot_response (env : Env) (user_message : List Char) : List Char :=
  match env.chat user_message with
  | Except.ok t => t
  | Except.error _ => apologyText

/-- `generate_response` (lines 163-172): clean the inputs (again), build
the prompt, call the chat service. -/
def generate_response (env : Env) (original_tweet_text : List Char)
    (user_comment : Option (List Char)) : List Char :=
  let cleaned_original_tweet := clean_tweet_text original_tweet_text
  match user_comment with
  | some uc =>
    let cleaned_user_comment := clean_tweet_text uc
    get_chatbot_response env (mkPrompt cleaned_original_tweet cleaned_user_comment)
  | none => get_chatbot_response env cleaned_original_tweet

/-- `summarize_with_claude` (lines 96-120): the HTTP exchange with the
summarization service is the oracle; a caught request failure is `none`. -/
def summarize_with_claude (env : Env) (text : List Char) : Option (List Char) :=
  env.summarize text

/-- `generate_image_from_response` (lines 347-416): the HTML templating
plus the HCTI call are the oracle; a caught request failure is `none`. -/
def generate_image_from_response (env : Env) (response_text : List Char) :
    Option (List Char) :=
  env.render response_text

/-- The visible tweet text computed at lines 186-193: `summary` is the
Claude result (`none` when the call failed; an empty summary is falsy in
`if summary:` and also takes the fallback branch).  Over the 280-character
limit, the source truncates to the first 265 characters plus `"..."`. -/
def composeTweetText (summary : Option (List Char)) : List Char :=
  match summary with
  | some s =>
    if s = [] then fallbackText
    else
      let tweet_text := s ++ suffixText
      if 280 < tweet_text.length then tweet_text.take 265 ++ "...".data
      else tweet_text
  | none => fallbackText

/-- The ledger row built at lines 229-235. -/
def mkRecord (conv : Tweet) (cleaned_conversation_text : List Char)
    (reply_id : Nat) (response_text : List Char) (mention : Tweet) : LedgerRecord :=
  { mentioned_conversation_tweet_id := conv.id
    mentioned_conversation_tweet_text := cleaned_conversation_text
    tweet_response_id := reply_id
    tweet_response_text := response_text
    mentioned_at := mention.created_at }

/-- `respond_to_mention` (lines 174-242).  The whole body is wrapped in
`try`/`except Exception`, so no error escapes: a failure of media
download/upload or of `create_tweet` lands in the handler, which bumps
`mentions_replied_errors` and yields `False`.  Returns the success flag,
the new state, and the external write calls attempted. -/
def respond_to_mention (env : Env) (st : BotState) (mention conv : Tweet) :
    Bool × BotState × List Event :=
  let user_comment : Option (List Char) :=
    if mention.id ≠ conv.id then some mention.text else none
  let cleaned_conversation_text := clean_tweet_text conv.text
  let cleaned_user_comment := user_comment.map clean_tweet_text
  let response_text := generate_response env cleaned_conversation_text cleaned_user_comment
  let image_url := generate_image_from_response env response_text
  let summary := summarize_with_claude env response_text
  let tweet_text := composeTweetText summary
  let stFail := { st with mentions_replied_errors := st.mentions_replied_errors + 1 }
  match image_url with
  | some url =>
    match env.uploadMedia url with
    | Except.error _ => (false, stFail, [Event.mediaUpload url])
    | Except.ok media_id =>
      match env.createTweet tweet_text (some media_id) mention.id with
      | Except.error _ =>
        (false, stFail,
         [Event.mediaUpload url, Event.publish tweet_text (some media_id) mention.id])
      | Except.ok reply_id =>
        (true,
         { st with ledger := st.ledger ++
             [mkRecord conv cleaned_conversation_text reply_id response_text mention] },
         [Event.mediaUpload url, Event.publish tweet_text (some media_id) mention.id,
          Event.ledgerInsert conv.id reply_id])
  | none =>
    match env.createTweet tweet_text none mention.id with
    | Except.error _ => (false, stFail, [Event.publish tweet_text none mention.id])
    | Except.ok reply_id =>
      (true,
       { st with ledger := st.ledger ++
           [mkRecord conv cleaned_conversation_text reply_id response_text mention] },
       [Event.publish tweet_text none mention.id, Event.ledgerInsert conv.id reply_id])

/-- `get_mention_conversation_tweet` (lines 247-264).  The `elif
mention.conversation_id:` guard is Python truthiness, so a conversation
id of `0` also falls through to `return None`.  A `get_tweet` failure,
or a response whose `data` is missing (the `author_id` attribute access
then raises), propagates: nothing catches it. -/
def get_mention_conversation_tweet (env : Env) (mention : Tweet) :
    Except Unit (Option Tweet) :=
  if mention.conversation_id = some mention.id then
    Except.ok (some mention)
  else
    match mention.conversation_id with
    | some cid =>
      if cid ≠ 0 then
        match env.getTweet cid with
        | Except.error e => Except.error e
        | Except.ok none => Except.error ()
        | Except.ok (some replied_to_tweet) =>
          if replied_to_tweet.author_id ≠ env.me_id then
            Except.ok (some replied_to_tweet)
          else
            Except.ok (some mention)
      else Except.ok none
    | none => Except.ok none

/-- The `since_id` computed at lines 267-272: the stored cursor, or `1`
when Redis holds no `last_tweet_id`. -/
def sinceIdOf (st : BotState) : Nat :=
  match st.cursor with
  | some v => v
  | none => 1

/-- The pagination loop of `get_mentions` (lines 280-300), consuming the
successive page responses: pages accumulate while a `next_token` is
present; a `TweepError` is caught, logged and BREAKS the loop, returning
whatever was accumulated so far. -/
def getMentionsAux : List (Except Unit (List Tweet × Bool)) → List Tweet → List Tweet
  | [], acc => acc
  | Except.error _ :: _, acc => acc
  | Except.ok (items, hasNext) :: rest, acc =>
    if hasNext then getMentionsAux rest (acc ++ items) else acc ++ items

/-- `get_mentions` (lines 266-303). -/
def get_mentions (env : Env) (st : BotState) : List Tweet :=
  getMentionsAux (env.pages (sinceIdOf st)) []

/-- `check_already_responded` (lines 305-310): linear scan of the
Airtable rows for the target id. -/
def check_already_responded (st : BotState) (mentioned_conversation_tweet_id : Nat) :
    Bool :=
  st.ledger.any
    (fun record => record.mentioned_conversation_tweet_id = mentioned_conversation_tweet_id)

/-- `mentions.sort(key=lambda x: x.id)` (line 323): a stable sort
ascending by id. -/
def sortById (mentions : List Tweet) : List Tweet :=
  List.insertionSort (fun a b => a.id ≤ b.id) mentions

instance : IsTotal Tweet (fun a b => a.id ≤ b.id) :=
  ⟨fun a b => Nat.le_total a.id b.id⟩

instance : IsTrans Tweet (fun a b => a.id ≤ b.id) :=
  ⟨fun _ _ _ hab hbc => Nat.le_trans hab hbc⟩

/-- One iteration of the loop at lines 325-337.  Resolution happens
OUTSIDE any handler, so its exceptions abort the run; likewise, a `None`
target makes `mentioned_conversation_tweet.id` raise `AttributeError`.
Otherwise the ledger is consulted, the reply is attempted when the
target is new, and the Redis cursor is set to this mention id
unconditionally at the end of the iteration. -/
def processMention (env : Env) (st : BotState) (mention : Tweet) :
    Except RunError (BotState × List Event) :=
  match get_mention_conversation_tweet env mention with
  | Except.error _ => Except.error RunError.resolveError
  | Except.ok none => Except.error RunError.noneTarget
  | Except.ok (some conv) =>
    if check_already_responded st conv.id then
      Except.ok ({ st with cursor := some mention.id }, [Event.cursorSet mention.id])
    else
      let r := respond_to_mention env st mention conv
      let st1 :=
        if r.1 then { r.2.1 with mentions_replied := r.2.1.mentions_replied + 1 }
        else r.2.1
      Except.ok ({ st1 with cursor := some mention.id },
                 r.2.2 ++ [Event.cursorSet mention.id])

/-- The mention loop: iterations run in order; an uncaught exception
aborts the run, keeping the state and writes of completed iterations
(side effects already performed persist) and dropping the rest. -/
def processMentions (env : Env) (st : BotState) :
    List Tweet → Option RunError × BotState × List Event
  | [] => (none, st, [])
  | mention :: rest =>
    match processMention env st mention with
    | Except.error e => (some e, st, [])
    | Except.ok (st1, evs) =>
      let r := processMentions env st1 rest
      (r.1, r.2.1, evs ++ r.2.2)

/-- `respond_to_mentions` (lines 312-340): fetch, early-return on an
empty batch, record `mentions_found`, sort ascending by id, cap at
`tweet_response_limit`, then run the loop. -/
def respond_to_mentions (env : Env) (st : BotState) :
    Option RunError × BotState × List Event :=
  let mentions := get_mentions env st
  if mentions = [] then (none, st, [])
  else
    let st1 := { st with mentions_found := mentions.length }
    processMentions env st1 ((sortById mentions).take st1.tweet_response_limit)

/-- The cursor writes of a trace, in order. -/
def cursorIds (trace : List Event) : List Nat :=
  trace.filterMap
    (fun e => match e with
      | Event.cursorSet v => some v
      | _ => none)

/-! ### Concrete collaborators used to exercise the theorems -/

/-- A minimal environment: every outward call fails except tweet
creation, which returns id 1. -/
def baseEnv : Env :=
  { me_id := 100
    pages := fun _ => []
    getTweet := fun _ => Except.error ()
    chat := fun _ => Except.error ()
    render := fun _ => none
    summarize := fun _ => none
    uploadMedia := fun _ => Except.error ()
    createTweet := fun _ _ _ => Except.ok 1 }

/-- The bot state right after `__init__` (lines 141-161): empty ledger,
no stored cursor, limit 35, zeroed counters. -/
def initialState : BotState :=
  { ledger := []
    cursor := none
    tweet_response_limit := 35
    mentions_found := 0
    mentions_replied := 0
    mentions_replied_errors := 0 }

end ReplyBot

namespace ReplyBot

/-! ### C1 -/

/-- C1: a mention whose resolved target post id already has a ledger
record is skipped by the loop iteration: the only write is the cursor
update, so no reply tweet is created and no ledger record is inserted
for that mention. -/
theorem c1_ledger_hit_skips_publish (env : Env) (st : BotState) (mention conv : Tweet)
    (hres : get_mention_conversation_tweet env mention = Except.ok (some conv))
    (hled : check_already_responded st conv.id = true) :
    processMention env st mention =
      Except.ok ({ st with cursor := some mention.id }, [Event.cursorSet mention.id]) := by
  unfold processMention
  rw [hres]
  simp [hled]

def c1Mention : Tweet := ⟨7, 2, [], some 7, 0⟩

def c1St : BotState :=
  { initialState with ledger := [⟨7, [], 1, [], 0⟩] }

theorem c1_ledger_hit_skips_publish_witness :
    get_mention_conversation_tweet baseEnv c1Mention = Except.ok (some c1Mention) ∧
    check_already_responded c1St c1Mention.id = true ∧
    processMention baseEnv c1St c1Mention =
      Except.ok ({ c1St with cursor := some c1Mention.id },
                 [Event.cursorSet c1Mention.id]) :=
  ⟨by rfl, by rfl,
   c1_ledger_hit_skips_publish baseEnv c1St c1Mention c1Mention (by rfl) (by rfl)⟩

/-! ### C5 -/

/-- C5: when the conversation root is distinct from the mention,
fetchable, and authored by the bot itself, the resolver yields the
mention, not the root. -/
theorem c5_self_root_resolves_to_mention (env : Env) (mention root : Tweet) (cid : Nat)
    (hcid : mention.conversation_id = some cid)
    (hne : cid ≠ mention.id) (h0 : cid ≠ 0)
    (hfetch : env.getTweet cid = Except.ok (some root))
    (hself : root.author_id = env.me_id) :
    get_mention_conversation_tweet env mention = Except.ok (some mention) := by
  unfold get_mention_conversation_tweet
  rw [hcid]
  simp [hne, h0, hfetch, hself]

def c5Root : Tweet := ⟨3, 100, "old bot reply".data, some 3, 0⟩

def c5Mention : Tweet := ⟨9, 2, "hello".data, some 3, 0⟩

def c5Env : Env :=
  { baseEnv with getTweet := fun i => if i = 3 then Except.ok (some c5Root) else Except.error () }

theorem c5_self_root_resolves_to_mention_witness :
    c5Mention.conversation_id = some 3 ∧ (3 : Nat) ≠ c5Mention.id ∧ (3 : Nat) ≠ 0 ∧
    c5Env.getTweet 3 = Except.ok (some c5Root) ∧
    c5Root.author_id = c5Env.me_id ∧
    get_mention_conversation_tweet c5Env c5Mention = Except.ok (some c5Mention) :=
  ⟨by rfl, by decide, by decide, by rfl, by rfl,
   c5_self_root_resolves_to_mention c5Env c5Mention c5Root 3
     (by rfl) (by decide) (by decide) (by rfl) (by rfl)⟩

/-! ### C7 -/

/-- C7: a run whose fetch returns no mentions performs no external
write at all: the trace is empty (no publish, no ledger insert, no
cursor set) and the state is unchanged. -/
theorem c7_empty_fetch_writes_nothing (env : Env) (st : BotState)
    (h : get_mentions env st = []) :
    respond_to_mentions env st = (none, st, []) := by
  unfold respond_to_mentions
  simp [h]

theorem c7_empty_fetch_writes_nothing_witness :
    get_mentions baseEnv initialState = [] ∧
    respond_to_mentions baseEnv initialState = (none, initialState, []) :=
  ⟨by rfl, c7_empty_fetch_writes_nothing baseEnv initialState (by rfl)⟩

/-! ### C9 -/

/-- C9: whenever an iteration gets past target resolution, it ends by
setting the cursor to the examined mention id, regardless of whether
the mention was skipped as already answered, was replied to
successfully, or failed during generation or publishing: the iteration
result always ends with that cursor write and the stored cursor equals
the mention id. -/
theorem c9_cursor_advances_per_mention (env : Env) (st : BotState) (mention conv : Tweet)
    (hres : get_mention_conversation_tweet env mention = Except.ok (some conv)) :
    ∃ st1 pre, processMention env st mention =
        Except.ok (st1, pre ++ [Event.cursorSet mention.id]) ∧
      st1.cursor = some mention.id := by
  unfold processMention
  rw [hres]
  by_cases hc : check_already_responded st conv.id
  · exact ⟨{ st with cursor := some mention.id }, [], by simp [hc], rfl⟩
  · exact ⟨{ (if (respond_to_mention env st mention conv).1 then
        { (respond_to_mention env st mention conv).2.1 with
            mentions_replied := (respond_to_mention env st mention conv).2.1.mentions_replied + 1 }
      else (respond_to_mention env st mention conv).2.1) with cursor := some mention.id },
      (respond_to_mention env st mention conv).2.2, by simp [hc], rfl⟩

def c9Mention : Tweet := ⟨11, 2, "tell me more".data, some 11, 0⟩

theorem c9_cursor_advances_per_mention_witness :
    get_mention_conversation_tweet baseEnv c9Mention = Except.ok (some c9Mention) ∧
    ∃ st1 pre, processMention baseEnv initialState c9Mention =
        Except.ok (st1, pre ++ [Event.cursorSet c9Mention.id]) ∧
      st1.cursor = some c9Mention.id :=
  ⟨by rfl,
   c9_cursor_advances_per_mention baseEnv initialState c9Mention c9Mention (by rfl)⟩

/-! ### C2 -/

def c2Summary : List Char := List.replicate 277 'a'

/-- C2 counterexample: a summary of 277 characters makes the combined
text 300 characters long, above the 280-character limit, yet the
published text is 268 characters (the source truncates to 265 plus the
three-dot marker), not the 280 the claim states. -/
theorem c2_truncated_length_is_not_280 :
    280 < (c2Summary ++ suffixText).length ∧
    (composeTweetText (some c2Summary)).length = 268 ∧
    (composeTweetText (some c2Summary)).length ≠ 280 := by
  refine ⟨by decide, by decide, by decide⟩

/-- C2 (amended): when the summary-plus-suffix text exceeds 280
characters, the published text is exactly 268 characters, ends with the
three-dot ellipsis marker, and its first 265 characters equal the first
265 characters of the untruncated text. -/
theorem c2_truncation_to_268 (s : List Char) (hne : s ≠ [])
    (hlong : 280 < (s ++ suffixText).length) :
    (composeTweetText (some s)).length = 268 ∧
    (composeTweetText (some s)).drop 265 = "...".data ∧
    (composeTweetText (some s)).take 265 = (s ++ suffixText).take 265 := by
  have h1 : ((s ++ suffixText).take 265).length = 265 := by
    rw [List.length_take]
    omega
  simp only [composeTweetText, if_neg hne, if_pos hlong]
  refine ⟨?_, ?_, ?_⟩
  · rw [List.length_append, h1]
    decide
  · exact List.drop_left' h1
  · exact List.take_left' h1

theorem c2_truncation_to_268_witness :
    c2Summary ≠ [] ∧ 280 < (c2Summary ++ suffixText).length ∧
    ((composeTweetText (some c2Summary)).length = 268 ∧
     (composeTweetText (some c2Summary)).drop 265 = "...".data ∧
     (composeTweetText (some c2Summary)).take 265 = (c2Summary ++ suffixText).take 265) :=
  ⟨by decide, by decide, c2_truncation_to_268 c2Summary (by decide) (by decide)⟩

/-! ### C3 -/

/-- C3 (code bug evidence): a mention whose `conversation_id` is absent
makes the resolver return `None`; the loop body then dereferences
`mentioned_conversation_tweet.id` outside any handler, so the run
aborts on the spot: the state is unchanged (no cursor advance for this
mention), no event is emitted, and no later mention of the batch is
examined. -/
theorem c3_unresolvable_mention_aborts_run (env : Env) (st : BotState)
    (mention : Tweet) (rest : List Tweet)
    (hcid : mention.conversation_id = none) :
    processMentions env st (mention :: rest) = (some RunError.noneTarget, st, []) := by
  have hres : get_mention_conversation_tweet env mention = Except.ok none := by
    unfold get_mention_conversation_tweet
    rw [hcid]
    simp
  simp [processMentions, processMention, hres]

def c3Mention : Tweet := ⟨13, 2, "what about this".data, none, 0⟩

def c3Next : Tweet := ⟨14, 3, "and this".data, some 14, 0⟩

theorem c3_unresolvable_mention_aborts_run_witness :
    c3Mention.conversation_id = none ∧
    processMentions baseEnv initialState [c3Mention, c3Next] =
      (some RunError.noneTarget, initialState, []) :=
  ⟨by rfl,
   c3_unresolvable_mention_aborts_run baseEnv initialState c3Mention [c3Next] (by rfl)⟩

/-! ### C4 -/

def c4Mention : Tweet := ⟨9, 2, "hi".data, some 9, 0⟩

/-- Pages for the C4 counterexample: the first page carries one mention
and a `next_token`; fetching the second page raises a transport error. -/
def c4Env : Env :=
  { baseEnv with
      pages := fun _ => [Except.ok ([c4Mention], true), Except.error ()] }

def c4St : BotState := { initialState with cursor := some 5 }

/-- C4 counterexample: the mention fetch fails partway through
pagination (second page), yet the run is NOT aborted: the mention from
the first page is processed, a reply is published for it, and the
cursor moves from 5 to 9 instead of retaining its prior value. -/
theorem c4_partial_batch_still_processed :
    c4Env.pages (sinceIdOf c4St) = [Except.ok ([c4Mention], true), Except.error ()] ∧
    (respond_to_mentions c4Env c4St).1 = none ∧
    Event.publish (composeTweetText none) none 9 ∈ (respond_to_mentions c4Env c4St).2.2 ∧
    (respond_to_mentions c4Env c4St).2.1.cursor = some 9 := by
  refine ⟨by rfl, by rfl, by decide, by rfl⟩

/-- C4 (amended): only a transport error on the FIRST page makes the
run a no-op with the cursor retained; an error on a later page merely
stops pagination and the mentions already fetched are processed
normally. -/
theorem c4_first_page_error_aborts_run (env : Env) (st : BotState)
    (rest : List (Except Unit (List Tweet × Bool)))
    (h : env.pages (sinceIdOf st) = Except.error () :: rest) :
    respond_to_mentions env st = (none, st, []) := by
  have hm : get_mentions env st = [] := by
    unfold get_mentions
    rw [h]
    rfl
  unfold respond_to_mentions
  simp [hm]

def c4FailEnv : Env :=
  { baseEnv with pages := fun _ => [Except.error ()] }

theorem c4_first_page_error_aborts_run_witness :
    c4FailEnv.pages (sinceIdOf c4St) = Except.error () :: [] ∧
    respond_to_mentions c4FailEnv c4St = (none, c4St, []) :=
  ⟨by rfl, c4_first_page_error_aborts_run c4FailEnv c4St [] (by rfl)⟩

/-! ### C8 -/

/-- C8: when the chat-completion call fails, `generate_response` does
not raise and returns the fixed, non-empty apology as the reply body,
and the iteration still proceeds to the publish attempt with that body:
the reply tweet is created (visible text derived from the apology) and
the ledger record stores the apology as the response text.  The render
and create-tweet oracles are pinned so the publish attempt itself is
observable. -/
theorem c8_chat_failure_degrades_to_apology (env : Env) (st : BotState)
    (mention conv : Tweet) (rid : Nat)
    (hchat : ∀ p, env.chat p = Except.error ())
    (hrender : ∀ t, env.render t = none)
    (hcreate : ∀ txt mid r, env.createTweet txt mid r = Except.ok rid) :
    (∀ a b, generate_response env a b = apologyText) ∧
    apologyText ≠ [] ∧
    (respond_to_mention env st mention conv).1 = true ∧
    (respond_to_mention env st mention conv).2.2 =
      [Event.publish (composeTweetText (env.summarize apologyText)) none mention.id,
       Event.ledgerInsert conv.id rid] ∧
    (respond_to_mention env st mention conv).2.1.ledger =
      st.ledger ++ [mkRecord conv (clean_tweet_text conv.text) rid apologyText mention] := by
  have hgen : ∀ a b, generate_response env a b = apologyText := by
    intro a b
    cases b with
    | none => simp [generate_response, get_chatbot_response, hchat]
    | some uc => simp [generate_response, get_chatbot_response, hchat]
  refine ⟨hgen, by decide, ?_, ?_, ?_⟩ <;>
    simp [respond_to_mention, generate_image_from_response, hrender, hgen, hcreate,
          summarize_with_claude]

def c8Mention : Tweet := ⟨21, 2, "what is this".data, some 21, 0⟩

theorem c8_chat_failure_degrades_to_apology_witness :
    (∀ p, baseEnv.chat p = Except.error ()) ∧
    (∀ t, baseEnv.render t = none) ∧
    (∀ txt mid r, baseEnv.createTweet txt mid r = Except.ok 1) ∧
    ((∀ a b, generate_response baseEnv a b = apologyText) ∧
     apologyText ≠ [] ∧
     (respond_to_mention baseEnv initialState c8Mention c8Mention).1 = true ∧
     (respond_to_mention baseEnv initialState c8Mention c8Mention).2.2 =
       [Event.publish (composeTweetText (baseEnv.summarize apologyText)) none c8Mention.id,
        Event.ledgerInsert c8Mention.id 1] ∧
     (respond_to_mention baseEnv initialState c8Mention c8Mention).2.1.ledger =
       initialState.ledger ++
         [mkRecord c8Mention (clean_tweet_text c8Mention.text) 1 apologyText c8Mention]) :=
  ⟨fun _ => rfl, fun _ => rfl, fun _ _ _ => rfl,
   c8_chat_failure_degrades_to_apology baseEnv initialState c8Mention c8Mention 1
     (fun _ => rfl) (fun _ => rfl) (fun _ _ _ => rfl)⟩

/-! ### Loop bookkeeping lemmas for C6 -/

theorem cursorIds_append (a b : List Event) :
    cursorIds (a ++ b) = cursorIds a ++ cursorIds b :=
  List.filterMap_append a b _

/-- A reply attempt performs no cursor write: only the loop does, after
the attempt. -/
theorem cursorIds_respond_to_mention (env : Env) (st : BotState) (m c : Tweet) :
    cursorIds (respond_to_mention env st m c).2.2 = [] := by
  simp only [respond_to_mention]
  split
  · split
    · rfl
    · split <;> rfl
  · split <;> rfl

/-- Any iteration whose mention resolves to a target completes,
finishes with the cursor at that mention id, and writes the cursor
exactly once. -/
theorem processMention_resolved (env : Env) (st : BotState) (m conv : Tweet)
    (hres : get_mention_conversation_tweet env m = Except.ok (some conv)) :
    ∃ st1 evs, processMention env st m = Except.ok (st1, evs) ∧
      st1.cursor = some m.id ∧ cursorIds evs = [m.id] := by
  unfold processMention
  rw [hres]
  by_cases hc : check_already_responded st conv.id
  · exact ⟨{ st with cursor := some m.id }, [Event.cursorSet m.id],
      by simp [hc], rfl, rfl⟩
  · refine ⟨{ (if (respond_to_mention env st m conv).1 then
        { (respond_to_mention env st m conv).2.1 with
            mentions_replied := (respond_to_mention env st m conv).2.1.mentions_replied + 1 }
      else (respond_to_mention env st m conv).2.1) with cursor := some m.id },
      (respond_to_mention env st m conv).2.2 ++ [Event.cursorSet m.id],
      by simp [hc], rfl, ?_⟩
    rw [cursorIds_append, cursorIds_respond_to_mention]
    rfl

/-- The mention loop over a batch in which every mention resolves:
no abort, one cursor write per mention in batch order, and the final
cursor is the last mention id of the batch. -/
theorem processMentions_all_resolved (env : Env) :
    ∀ (ms : List Tweet) (st : BotState),
      (∀ m ∈ ms, ∃ t, get_mention_conversation_tweet env m = Except.ok (some t)) →
      (processMentions env st ms).1 = none ∧
      cursorIds (processMentions env st ms).2.2 = ms.map (fun m => m.id) ∧
      (processMentions env st ms).2.1.cursor =
        (match ms.getLast? with
         | none => st.cursor
         | some m => some m.id) := by
  intro ms
  induction ms with
  | nil =>
    intro st _
    exact ⟨rfl, rfl, rfl⟩
  | cons m rest ih =>
    intro st h
    obtain ⟨t, ht⟩ := h m (List.mem_cons_self m rest)
    obtain ⟨st1, evs, heq, hcur, hcids⟩ := processMention_resolved env st m t ht
    have ihr := ih st1 (fun x hx => h x (List.mem_cons_of_mem _ hx))
    refine ⟨?_, ?_, ?_⟩
    · simp [processMentions, heq, ihr.1]
    · simp only [processMentions, heq]
      rw [cursorIds_append, hcids, ihr.2.1]
      rfl
    · simp only [processMentions, heq]
      cases rest with
      | nil =>
        simpa [processMentions] using hcur
      | cons r rs =>
        rw [List.getLast?_cons_cons]
        have := ihr.2.2
        simpa [List.getLast?_cons_cons] using this

/-- On a non-empty batch, a run is the loop over the sorted, capped
batch, with `mentions_found` recorded. -/
theorem respond_to_mentions_eq (env : Env) (st : BotState)
    (h : get_mentions env st ≠ []) :
    respond_to_mentions env st =
      processMentions env { st with mentions_found := (get_mentions env st).length }
        ((sortById (get_mentions env st)).take st.tweet_response_limit) := by
  unfold respond_to_mentions
  rw [if_neg h]

/-! ### C6 -/

/-- C6: with the limit 35 set by `__init__` and a fetched batch of more
than 35 mentions, a run in which the examined mentions all resolve
processes exactly the first 35 mentions of the batch sorted ascending
by id (one cursor write each, in that order); the sorted batch is a
sorted permutation of the fetch result, every examined mention id is at
most every unexamined one, and the final cursor is the id of the 35th
mention in sort order, not the largest id of the batch. -/
theorem c6_cap_and_cursor_at_35th (env : Env) (st : BotState)
    (hlim : st.tweet_response_limit = 35)
    (hlen : 35 < (get_mentions env st).length)
    (hres : ∀ m ∈ (sortById (get_mentions env st)).take 35,
       ∃ t, get_mention_conversation_tweet env m = Except.ok (some t)) :
    (respond_to_mentions env st).1 = none ∧
    cursorIds (respond_to_mentions env st).2.2 =
      ((sortById (get_mentions env st)).take 35).map (fun m => m.id) ∧
    ((sortById (get_mentions env st)).take 35).length = 35 ∧
    List.Sorted (fun a b : Tweet => a.id ≤ b.id) (sortById (get_mentions env st)) ∧
    (sortById (get_mentions env st)).Perm (get_mentions env st) ∧
    (∀ x ∈ (sortById (get_mentions env st)).take 35,
       ∀ y ∈ (sortById (get_mentions env st)).drop 35, x.id ≤ y.id) ∧
    (respond_to_mentions env st).2.1.cursor =
      ((sortById (get_mentions env st)).take 35).getLast?.map (fun m => m.id) := by
  have hne : get_mentions env st ≠ [] := by
    intro h
    rw [h] at hlen
    simp at hlen
  have hperm : (sortById (get_mentions env st)).Perm (get_mentions env st) :=
    List.perm_insertionSort _ _
  have hsorted : List.Sorted (fun a b : Tweet => a.id ≤ b.id)
      (sortById (get_mentions env st)) :=
    List.sorted_insertionSort _ _
  have htlen : ((sortById (get_mentions env st)).take 35).length = 35 := by
    rw [List.length_take, hperm.length_eq]
    omega
  have hrun := respond_to_mentions_eq env st hne
  nth_rewrite 2 [hlim] at hrun
  have hloop := processMentions_all_resolved env
    ((sortById (get_mentions env st)).take 35)
    { st with mentions_found := (get_mentions env st).length } hres
  obtain ⟨last, hlast⟩ : ∃ m, ((sortById (get_mentions env st)).take 35).getLast? = some m := by
    have : ((sortById (get_mentions env st)).take 35) ≠ [] := by
      intro h
      rw [h] at htlen
      simp at htlen
    exact Option.isSome_iff_exists.mp (List.getLast?_isSome.mpr this)
  refine ⟨?_, ?_, htlen, hsorted, hperm, ?_, ?_⟩
  · rw [hrun]
    exact hloop.1
  · rw [hrun]
    exact hloop.2.1
  · intro x hx y hy
    have hs : List.Pairwise (fun a b : Tweet => a.id ≤ b.id)
        ((sortById (get_mentions env st)).take 35 ++
         (sortById (get_mentions env st)).drop 35) := by
      rw [List.take_append_drop]
      exact hsorted
    exact (List.pairwise_append.mp hs).2.2 x hx y hy
  · rw [hrun, hlast]
    have := hloop.2.2
    rw [hlast] at this
    simpa using this

/-- A mention that is its own conversation root resolves to itself
without any fetch. -/
theorem resolve_self (env : Env) (m : Tweet) (h : m.conversation_id = some m.id) :
    get_mention_conversation_tweet env m = Except.ok (some m) := by
  unfold get_mention_conversation_tweet
  rw [h]
  simp

def c6Tweets : List Tweet :=
  (List.range 36).map (fun i => ⟨i + 1, 2, [], some (i + 1), 0⟩)

def c6Env : Env :=
  { baseEnv with pages := fun _ => [Except.ok (c6Tweets, false)] }

theorem c6_cap_and_cursor_at_35th_witness :
    initialState.tweet_response_limit = 35 ∧
    35 < (get_mentions c6Env initialState).length ∧
    (∀ m ∈ (sortById (get_mentions c6Env initialState)).take 35,
       ∃ t, get_mention_conversation_tweet c6Env m = Except.ok (some t)) ∧
    ((respond_to_mentions c6Env initialState).1 = none ∧
     cursorIds (respond_to_mentions c6Env initialState).2.2 =
       ((sortById (get_mentions c6Env initialState)).take 35).map (fun m => m.id) ∧
     ((sortById (get_mentions c6Env initialState)).take 35).length = 35 ∧
     List.Sorted (fun a b : Tweet => a.id ≤ b.id)
       (sortById (get_mentions c6Env initialState)) ∧
     (sortById (get_mentions c6Env initialState)).Perm (get_mentions c6Env initialState) ∧
     (∀ x ∈ (sortById (get_mentions c6Env initialState)).take 35,
        ∀ y ∈ (sortById (get_mentions c6Env initialState)).drop 35, x.id ≤ y.id) ∧
     (respond_to_mentions c6Env initialState).2.1.cursor =
       ((sortById (get_mentions c6Env initialState)).take 35).getLast?.map
         (fun m => m.id)) := by
  have hall : ∀ m ∈ (sortById (get_mentions c6Env initialState)).take 35,
      m.conversation_id = some m.id := by decide
  have hres : ∀ m ∈ (sortById (get_mentions c6Env initialState)).take 35,
      ∃ t, get_mention_conversation_tweet c6Env m = Except.ok (some t) :=
    fun m hm => ⟨m, resolve_self c6Env m (hall m hm)⟩
  exact ⟨rfl, by decide, hres,
    c6_cap_and_cursor_at_35th c6Env initialState rfl (by decide) hres⟩

/-! ### Normalizer lemmas for C10 -/

theorem list_length_induction {α : Type} {P : List α → Prop}
    (step : ∀ l, (∀ l2, l2.length < l.length → P l2) → P l) : ∀ l, P l := by
  have key : ∀ n (l : List α), l.length ≤ n → P l := by
    intro n
    induction n with
    | zero =>
      intro l hl
      exact step l (fun l2 h2 => absurd (Nat.lt_of_lt_of_le h2 hl) (Nat.not_lt_zero _))
    | succ k ihk =>
      intro l hl
      exact step l (fun l2 h2 => ihk l2 (Nat.le_of_lt_succ (Nat.lt_of_lt_of_le h2 hl)))
  exact fun l => key l.length l (Nat.le_refl _)

theorem takeWhile_append_of_all (p : Char → Bool) :
    ∀ (a b : List Char), (∀ c ∈ a, p c = true) →
      List.takeWhile p (a ++ b) = a ++ List.takeWhile p b := by
  intro a
  induction a with
  | nil => intro b _; rfl
  | cons x xs ih =>
    intro b h
    have hx : p x = true := h x (List.mem_cons_self x xs)
    rw [List.cons_append, List.takeWhile_cons p x (xs ++ b), if_pos hx,
        ih b (fun c hc => h c (List.mem_cons_of_mem _ hc)), List.cons_append]

theorem dropWhile_append_of_all (p : Char → Bool) :
    ∀ (a b : List Char), (∀ c ∈ a, p c = true) →
      List.dropWhile p (a ++ b) = List.dropWhile p b := by
  intro a
  induction a with
  | nil => intro b _; rfl
  | cons x xs ih =>
    intro b h
    have hx : p x = true := h x (List.mem_cons_self x xs)
    rw [List.cons_append, List.dropWhile_cons, if_pos hx,
        ih b (fun c hc => h c (List.mem_cons_of_mem _ hc))]

/-- Every word produced by `wordsOf` is non-empty and space-free. -/
theorem wordsOf_words_ok :
    ∀ l : List Char, ∀ w ∈ wordsOf l, w ≠ [] ∧ ∀ c ∈ w, isSpaceChar c = false := by
  refine list_length_induction ?_
  intro l ih
  cases l with
  | nil =>
    intro w hw
    simp [wordsOf] at hw
  | cons c rest =>
    intro w hw
    by_cases hc : isSpaceChar c
    · simp only [wordsOf, if_pos hc] at hw
      exact ih rest (Nat.lt_succ_self _) w hw
    · simp only [wordsOf, if_neg hc] at hw
      have hcf : isSpaceChar c = false := Bool.eq_false_iff.mpr hc
      rcases List.mem_cons.mp hw with hw | hw
      · subst hw
        refine ⟨by simp, ?_⟩
        intro d hd
        rcases List.mem_cons.mp hd with hd | hd
        · subst hd
          exact hcf
        · have := List.mem_takeWhile_imp hd
          simpa using this
      · exact ih (rest.dropWhile (fun d => !(isSpaceChar d)))
          (Nat.lt_succ_of_le (dropWhile_length_le _ rest)) w hw

/-- Every character of a `wordsOf` word comes from the input. -/
theorem wordsOf_subset :
    ∀ l : List Char, ∀ w ∈ wordsOf l, ∀ c ∈ w, c ∈ l := by
  refine list_length_induction ?_
  intro l ih
  cases l with
  | nil =>
    intro w hw
    simp [wordsOf] at hw
  | cons c rest =>
    intro w hw d hd
    by_cases hc : isSpaceChar c
    · simp only [wordsOf, if_pos hc] at hw
      exact List.mem_cons_of_mem _ (ih rest (Nat.lt_succ_self _) w hw d hd)
    · simp only [wordsOf, if_neg hc] at hw
      rcases List.mem_cons.mp hw with hw | hw
      · subst hw
        rcases List.mem_cons.mp hd with hd | hd
        · subst hd
          exact List.mem_cons_self _ _
        · exact List.mem_cons_of_mem _
            ((List.takeWhile_sublist _).subset hd)
      · have := ih (rest.dropWhile (fun e => !(isSpaceChar e)))
          (Nat.lt_succ_of_le (dropWhile_length_le _ rest)) w hw d hd
        exact List.mem_cons_of_mem _ ((List.dropWhile_sublist _).subset this)

/-- A character of the joined text is a separator space or a word
character. -/
theorem joinSpace_mem :
    ∀ ws : List (List Char), ∀ c ∈ joinSpace ws, c = ' ' ∨ ∃ w ∈ ws, c ∈ w := by
  intro ws
  induction ws with
  | nil =>
    intro c hc
    simp [joinSpace] at hc
  | cons w vs ih =>
    intro c hc
    cases vs with
    | nil =>
      simp only [joinSpace] at hc
      exact Or.inr ⟨w, List.mem_cons_self _ _, hc⟩
    | cons v vs2 =>
      simp only [joinSpace] at hc
      rcases List.mem_append.mp hc with h | h
      · exact Or.inr ⟨w, List.mem_cons_self _ _, h⟩
      · rcases List.mem_cons.mp h with h | h
        · exact Or.inl h
        · rcases ih c h with h2 | ⟨u, hu, hcu⟩
          · exact Or.inl h2
          · exact Or.inr ⟨u, List.mem_cons_of_mem _ hu, hcu⟩

/-- `wordsOf` recovers exactly the words that were joined, provided
they are non-empty and space-free. -/
theorem wordsOf_joinSpace :
    ∀ ws : List (List Char),
      (∀ w ∈ ws, w ≠ [] ∧ ∀ c ∈ w, isSpaceChar c = false) →
      wordsOf (joinSpace ws) = ws := by
  intro ws
  induction ws with
  | nil =>
    intro _
    simp [joinSpace, wordsOf]
  | cons w vs ih =>
    intro h
    obtain ⟨hne, hnsp⟩ := h w (List.mem_cons_self w vs)
    obtain ⟨c, w', rfl⟩ : ∃ c w2, w = c :: w2 := by
      cases w with
      | nil => exact absurd rfl hne
      | cons c w2 => exact ⟨c, w2, rfl⟩
    have hcn : ¬ (isSpaceChar c = true) := by
      rw [hnsp c (List.mem_cons_self _ _)]
      exact Bool.false_ne_true
    have hw2 : ∀ d ∈ w', (fun d => !(isSpaceChar d)) d = true := by
      intro d hd
      simp [hnsp d (List.mem_cons_of_mem _ hd)]
    cases vs with
    | nil =>
      show wordsOf (c :: w') = [c :: w']
      simp only [wordsOf, if_neg hcn]
      rw [List.takeWhile_eq_self_iff.mpr hw2, List.dropWhile_eq_nil_iff.mpr hw2]
      simp [wordsOf]
    | cons v vs2 =>
      have ihv := ih (fun u hu => h u (List.mem_cons_of_mem _ hu))
      show wordsOf ((c :: w') ++ ' ' :: joinSpace (v :: vs2)) = (c :: w') :: v :: vs2
      rw [List.cons_append]
      simp only [wordsOf, if_neg hcn]
      rw [takeWhile_append_of_all _ w' (' ' :: joinSpace (v :: vs2)) hw2,
          dropWhile_append_of_all _ w' (' ' :: joinSpace (v :: vs2)) hw2]
      have hsp : ((fun d => !(isSpaceChar d)) ' ') = false := by decide
      rw [List.takeWhile_cons _ ' ' (joinSpace (v :: vs2)), if_neg (by simp [hsp]),
          List.dropWhile_cons, if_neg (by simp [hsp])]
      have hspace : isSpaceChar ' ' = true := by decide
      simp only [wordsOf, if_pos hspace]
      rw [ihv, List.append_nil]

/-- Collapsing whitespace is idempotent. -/
theorem normSpace_idem (l : List Char) : normSpace (normSpace l) = normSpace l := by
  unfold normSpace
  rw [wordsOf_joinSpace (wordsOf l) (wordsOf_words_ok l)]

theorem stripMentions_eq_self : ∀ l : List Char, '@' ∉ l → stripMentions l = l := by
  intro l
  induction l with
  | nil =>
    intro _
    simp [stripMentions]
  | cons c rest ih =>
    intro h
    have hc : ¬ (c = '@' ∧ headIsWord rest) := by
      intro ⟨hcc, _⟩
      exact h (hcc ▸ List.mem_cons_self c rest)
    simp only [stripMentions, if_neg hc]
    rw [ih (fun hm => h (List.mem_cons_of_mem _ hm))]

theorem stripTags_eq_self : ∀ l : List Char, '#' ∉ l → '$' ∉ l → stripTags l = l := by
  intro l
  induction l with
  | nil =>
    intro _ _
    simp [stripTags]
  | cons c rest ih =>
    intro h1 h2
    have hc : ¬ ((c = '#' ∨ c = '$') ∧ headIsWord rest) := by
      intro ⟨hcc, _⟩
      cases hcc with
      | inl hcc => exact h1 (hcc ▸ List.mem_cons_self c rest)
      | inr hcc => exact h2 (hcc ▸ List.mem_cons_self c rest)
    simp only [stripTags, if_neg hc]
    rw [ih (fun hm => h1 (List.mem_cons_of_mem _ hm))
           (fun hm => h2 (List.mem_cons_of_mem _ hm))]

/-- Every character of a cleaned text is a kept character. -/
theorem clean_tweet_text_chars_kept (s : List Char) :
    ∀ c ∈ clean_tweet_text s, keepChar c = true := by
  intro c hc
  have := joinSpace_mem _ c hc
  rcases this with h | ⟨w, hw, hcw⟩
  · subst h
    decide
  · have hmem : c ∈ filterKept (stripTags (stripMentions (stripUrls s))) :=
      wordsOf_subset _ w hw c hcw
    exact (List.mem_filter.mp hmem).2

/-! ### C10 -/

def c10Input : List Char := ['w', '&', 'w', 'w', '.', 'x']

/-- C10 counterexample: on the input `w&ww.x` one cleaning pass removes
only the ampersand, leaving `www.x`; the second pass then matches the
URL pattern `www\S+` and deletes everything, so cleaning twice differs
from cleaning once. -/
theorem c10_clean_not_idempotent :
    clean_tweet_text c10Input = "www.x".data ∧
    clean_tweet_text (clean_tweet_text c10Input) = [] ∧
    clean_tweet_text (clean_tweet_text c10Input) ≠ clean_tweet_text c10Input := by
  have h1 : clean_tweet_text c10Input = "www.x".data := by
    simp [c10Input, clean_tweet_text, stripUrls, stripMentions, stripTags, filterKept,
          wordsOf, normSpace, joinSpace, isUrlStart, isSpaceChar, isWordChar, keepChar,
          headIsWord, List.dropWhile, List.takeWhile, List.filter]
  have h2 : clean_tweet_text (clean_tweet_text c10Input) = [] := by
    rw [h1]
    simp [clean_tweet_text, stripUrls, stripMentions, stripTags, filterKept,
          wordsOf, normSpace, joinSpace, isUrlStart, isSpaceChar, isWordChar, keepChar,
          headIsWord, List.dropWhile, List.takeWhile, List.filter]
  refine ⟨h1, h2, ?_⟩
  rw [h2, h1]
  decide

/-- C10 (amended): `clean_tweet_text` is idempotent on every input whose
cleaned form is a fixed point of the URL stripper (no URL-shaped token
newly exposed by the removal of disallowed characters); re-cleaning can
only differ by this URL pass, as the counterexample forces. -/
theorem c10_clean_idempotent_of_urlfree (s : List Char)
    (h : stripUrls (clean_tweet_text s) = clean_tweet_text s) :
    clean_tweet_text (clean_tweet_text s) = clean_tweet_text s := by
  have hkeep : ∀ c ∈ clean_tweet_text s, keepChar c = true :=
    clean_tweet_text_chars_kept s
  have hat : '@' ∉ clean_tweet_text s := by
    intro hm
    have := hkeep _ hm
    simp [keepChar, isSpaceChar] at this
  have hhash : '#' ∉ clean_tweet_text s := by
    intro hm
    have := hkeep _ hm
    simp [keepChar, isSpaceChar] at this
  have hdollar : '$' ∉ clean_tweet_text s := by
    intro hm
    have := hkeep _ hm
    simp [keepChar, isSpaceChar] at this
  show normSpace (filterKept (stripTags (stripMentions
      (stripUrls (clean_tweet_text s))))) = clean_tweet_text s
  rw [h, stripMentions_eq_self _ hat, stripTags_eq_self _ hhash hdollar]
  have hfilter : filterKept (clean_tweet_text s) = clean_tweet_text s :=
    List.filter_eq_self.mpr hkeep
  rw [hfilter]
  exact normSpace_idem (filterKept (stripTags (stripMentions (stripUrls s))))

def c10Tame : List Char := "Nice thread, thanks!".data

theorem c10_clean_idempotent_of_urlfree_witness :
    stripUrls (clean_tweet_text c10Tame) = clean_tweet_text c10Tame ∧
    clean_tweet_text (clean_tweet_text c10Tame) = clean_tweet_text c10Tame := by
  have hu : stripUrls (clean_tweet_text c10Tame) = clean_tweet_text c10Tame := by
    simp [c10Tame, clean_tweet_text, stripUrls, stripMentions, stripTags, filterKept,
          wordsOf, normSpace, joinSpace, isUrlStart, isSpaceChar, isWordChar, keepChar,
          headIsWord, List.dropWhile, List.takeWhile, List.filter]
  exact ⟨hu, c10_clean_idempotent_of_urlfree c10Tame hu⟩

end ReplyBot
